import Mathlib

/-!
Verification development for the Nebula Servers backend poller.

The definitions below are a shallow embedding of the poller's JavaScript
source (`src/unnamed/part_000`).  JavaScript machine integers are modelled
as `Nat`/`Int` with explicit `% 2 ^ 32` wraps where the source relies on
32-bit bitwise semantics; JavaScript values are modelled by the inductive
`JsVal`; fallible JavaScript evaluation (property access on `null` /
`undefined` throws a `TypeError`) is modelled with `Except Unit`.
-/

namespace Nebula

/-- Reinterpret an unsigned 32-bit quantity (`u < 2 ^ 32`) as JavaScript's
signed 32-bit integer, as produced by JS bitwise operators. -/
def toInt32 (u : Nat) : Int :=
  if u < 2 ^ 31 then (u : Int) else (u : Int) - 2 ^ 32

/-- `writeVarInt`'s loop body (source lines 208-219).  The JS code tests
`(v & 0xffffff80) === 0`; for `v < 2 ^ 32` (guaranteed by the initial
`v >>> 0` and by `v >>>= 7`) that test is exactly `v < 128`. -/
def writeVarIntAux (v : Nat) : List Nat :=
  if v < 128 then [v]
  else (v % 128 + 128) :: writeVarIntAux (v / 128)
termination_by v
decreasing_by exact Nat.div_lt_self (by omega) (by omega)

/-- `writeVarInt(value)` (source lines 208-219): `value >>> 0` is the
unsigned 32-bit wrap, then base-128 little-endian-group bytes with a
continuation flag in the high bit. -/
def writeVarInt (value : Nat) : List Nat :=
  writeVarIntAux (value % 2 ^ 32)

/-- The `{ value, size }` record returned by `readVarInt`. -/
structure VarIntRes where
  value : Int
  size : Nat
deriving DecidableEq, Repr

/-- `readVarInt`'s do/while loop (source lines 221-235), walking the bytes
from the starting offset (the list is the buffer suffix `buf[offset..]`).
`result |= (byte & 0x7f) << (7 * numRead)` uses JS 32-bit semantics: the
shift count is taken mod 32 and the accumulator lives in 32 bits; we keep
the accumulator as its unsigned 32-bit view and apply `toInt32` on return
(the `|=`/`<<` int32 reinterpretations are bitwise identical to this). -/
def readVarIntGo : List Nat → Nat → Nat → Option VarIntRes
  | [], _, _ => none  -- offset + numRead >= buf.length
  | byte :: rest, numRead, acc =>
    let acc' := acc ||| ((byte &&& 0x7f) <<< (7 * numRead % 32)) % 2 ^ 32
    let numRead' := numRead + 1
    if numRead' > 5 then none
    else if (byte &&& 0x80) ≠ 0 then readVarIntGo rest numRead' acc'
    else some ⟨toInt32 acc', numRead'⟩

/-- `readVarInt(buf, offset)` (source lines 221-235). -/
def readVarInt (buf : List Nat) (offset : Nat) : Option VarIntRes :=
  readVarIntGo (buf.drop offset) 0 0

/-! ### Arithmetic helper lemmas for the varint proofs -/

set_option maxRecDepth 4096 in
theorem land_127_of_byte : ∀ x, x < 256 → x &&& 127 = x % 128 := by decide

set_option maxRecDepth 4096 in
theorem land_128_of_lt : ∀ x, x < 128 → x &&& 128 = 0 := by decide

set_option maxRecDepth 4096 in
theorem land_128_of_ge : ∀ x, 128 ≤ x → x < 256 → x &&& 128 = 128 := by decide

theorem lor_small {a : Nat} {n : Nat} (h : a < 2 ^ n) (b : Nat) :
    a ||| b * 2 ^ n = a + b * 2 ^ n := by
  rw [Nat.mul_comm b (2 ^ n), Nat.lor_comm, ← Nat.mul_add_lt_is_or h b]
  omega

theorem writeVarIntAux_length : ∀ n v, v < 2 ^ (7 * n + 7) → (writeVarIntAux v).length ≤ n + 1 := by
  intro n
  induction n with
  | zero =>
    intro v hv
    rw [writeVarIntAux]
    have : v < 128 := by norm_num at hv; omega
    simp [this]
  | succ n ih =>
    intro v hv
    rw [writeVarIntAux]
    by_cases h : v < 128
    · simp [h]
    · simp only [h, if_false, List.length_cons]
      have hdiv : v / 128 < 2 ^ (7 * n + 7) := by
        apply Nat.div_lt_of_lt_mul
        calc v < 2 ^ (7 * (n + 1) + 7) := hv
          _ = 128 * 2 ^ (7 * n + 7) := by ring
      have := ih (v / 128) hdiv
      omega

/-- Decoding the encoder's bytes: walking `writeVarIntAux v` from loop state
`(numRead, acc)` accumulates exactly `acc + v * 2 ^ (7 * numRead)`. -/
theorem readVarIntGo_writeVarIntAux (rest : List Nat) :
    ∀ v k acc, k + (writeVarIntAux v).length ≤ 5 → acc < 2 ^ (7 * k) →
      acc + v * 2 ^ (7 * k) < 2 ^ 32 →
      readVarIntGo (writeVarIntAux v ++ rest) k acc =
        some ⟨toInt32 (acc + v * 2 ^ (7 * k)), k + (writeVarIntAux v).length⟩ := by
  intro v
  induction v using Nat.strong_induction_on with
  | _ v ih =>
    intro k acc hlen hacc htot
    by_cases h : v < 128
    · rw [writeVarIntAux, if_pos h] at hlen ⊢
      simp only [List.length_cons, List.length_nil] at hlen
      have hk : 7 * k % 32 = 7 * k := Nat.mod_eq_of_lt (by omega)
      have hb127 : v &&& 127 = v := by
        rw [land_127_of_byte v (by omega)]; omega
      have hb128 : v &&& 128 = 0 := land_128_of_lt v h
      have hmod : v <<< (7 * k) % 2 ^ 32 = v * 2 ^ (7 * k) := by
        rw [Nat.shiftLeft_eq]
        exact Nat.mod_eq_of_lt (by omega)
      have hlor : acc ||| v * 2 ^ (7 * k) = acc + v * 2 ^ (7 * k) := lor_small hacc v
      simp only [List.cons_append, List.nil_append, readVarIntGo, hk, hb127, hb128]
      rw [if_neg (show ¬(k + 1 > 5) by omega),
        if_neg (show ¬((0 : Nat) ≠ 0) by simp), hmod, hlor]
      simp
    · rw [writeVarIntAux, if_neg h] at hlen ⊢
      simp only [List.length_cons] at hlen
      have hbyte : v % 128 + 128 < 256 := by omega
      have hk : 7 * k % 32 = 7 * k := Nat.mod_eq_of_lt (by omega)
      have hb127 : (v % 128 + 128) &&& 127 = v % 128 := by
        rw [land_127_of_byte _ hbyte]; omega
      have hb128 : (v % 128 + 128) &&& 128 = 128 := land_128_of_ge _ (by omega) hbyte
      have hcomp : v % 128 * 2 ^ (7 * k) ≤ v * 2 ^ (7 * k) :=
        Nat.mul_le_mul_right _ (Nat.mod_le v 128)
      have hvk : v * 2 ^ (7 * k) < 2 ^ 32 := by omega
      have hmod : (v % 128) <<< (7 * k) % 2 ^ 32 = v % 128 * 2 ^ (7 * k) := by
        rw [Nat.shiftLeft_eq]
        exact Nat.mod_eq_of_lt (lt_of_le_of_lt hcomp hvk)
      have hlor : acc ||| v % 128 * 2 ^ (7 * k) = acc + v % 128 * 2 ^ (7 * k) :=
        lor_small hacc _
      have hmd : v % 128 + 128 * (v / 128) = v := Nat.mod_add_div v 128
      have h7 : (2 : Nat) ^ (7 * (k + 1)) = 2 ^ (7 * k) * 128 := by
        rw [show 7 * (k + 1) = 7 * k + 7 by ring, pow_add]; norm_num
      have key : acc + v % 128 * 2 ^ (7 * k) + v / 128 * 2 ^ (7 * (k + 1)) =
          acc + v * 2 ^ (7 * k) := by
        calc acc + v % 128 * 2 ^ (7 * k) + v / 128 * 2 ^ (7 * (k + 1))
            = acc + v % 128 * 2 ^ (7 * k) + v / 128 * (2 ^ (7 * k) * 128) := by rw [h7]
          _ = acc + (v % 128 + 128 * (v / 128)) * 2 ^ (7 * k) := by ring
          _ = acc + v * 2 ^ (7 * k) := by rw [hmd]
      have hacc' : acc + v % 128 * 2 ^ (7 * k) < 2 ^ (7 * (k + 1)) := by
        have hm : v % 128 < 128 := Nat.mod_lt v (by omega)
        have hle : v % 128 * 2 ^ (7 * k) ≤ 127 * 2 ^ (7 * k) :=
          Nat.mul_le_mul_right _ (by omega)
        calc acc + v % 128 * 2 ^ (7 * k) < 2 ^ (7 * k) + 127 * 2 ^ (7 * k) := by omega
          _ = 2 ^ (7 * k) * 128 := by ring
          _ = 2 ^ (7 * (k + 1)) := h7.symm
      have hrec := ih (v / 128) (Nat.div_lt_self (by omega) (by omega)) (k + 1)
        (acc + v % 128 * 2 ^ (7 * k)) (by omega) hacc' (by omega)
      simp only [List.cons_append, List.append_eq, readVarIntGo, hk, hb127, hb128]
      rw [if_neg (show ¬(k + 1 > 5) by omega),
        if_pos (show (128 : Nat) ≠ 0 by norm_num), hmod, hlor, hrec, key]
      simp only [Option.some.injEq, VarIntRes.mk.injEq, true_and, List.length_cons]
      omega

/-- With all continuation bits set to the end of the buffer, the loop hits
the bounds check (or the 6-byte guard) and returns `null`. -/
theorem readVarIntGo_none_all_cont :
    ∀ (l : List Nat) numRead acc, (∀ b ∈ l, b &&& 0x80 ≠ 0) →
      readVarIntGo l numRead acc = none := by
  intro l
  induction l with
  | nil => intro numRead acc _; rfl
  | cons byte rest ih =>
    intro numRead acc h
    have hb : byte &&& 0x80 ≠ 0 := h byte (List.mem_cons_self _ _)
    by_cases h5 : numRead + 1 > 5
    · simp only [readVarIntGo]
      rw [if_pos h5]
    · simp only [readVarIntGo]
      rw [if_neg h5, if_pos hb]
      exact ih _ _ (fun b hbm => h b (List.mem_cons_of_mem _ hbm))

/-- Five continuation bytes force the `numRead > 5` guard to fire on the
sixth iteration (or the bounds check, if the buffer ends first). -/
theorem readVarIntGo_none_five :
    ∀ (pre l : List Nat) numRead acc, pre.length + numRead = 5 →
      (∀ b ∈ pre, b &&& 0x80 ≠ 0) →
      readVarIntGo (pre ++ l) numRead acc = none := by
  intro pre
  induction pre with
  | nil =>
    intro l numRead acc hlen _
    simp only [List.length_nil, Nat.zero_add] at hlen
    subst hlen
    cases l with
    | nil => rfl
    | cons b rest => simp [readVarIntGo]
  | cons byte pre ih =>
    intro l numRead acc hlen h
    have hb : byte &&& 0x80 ≠ 0 := h byte (List.mem_cons_self _ _)
    simp only [List.length_cons] at hlen
    simp only [List.cons_append, readVarIntGo]
    rw [if_neg (show ¬(numRead + 1 > 5) by omega), if_pos hb]
    exact ih l (numRead + 1) _ (by omega) (fun b hbm => h b (List.mem_cons_of_mem _ hbm))

/-! ### Claim C4 — varint round-trip -/

/-- C4 (amended): for every integer `v` with `0 ≤ v < 2 ^ 31`,
`readVarInt(writeVarInt(v), 0)` returns value `v` with `size` equal to the
number of bytes `writeVarInt` produced, and that number is at most 5.
(The original claim's closed upper endpoint `v = 2 ^ 31` fails: see
`varint_roundtrip_cx` — JS's signed 32-bit `<<`/`|=` reinterpret the
accumulated `2 ^ 31` as `-2 ^ 31`.) -/
theorem varint_roundtrip (v : Nat) (hv : v < 2 ^ 31) :
    readVarInt (writeVarInt v) 0 = some ⟨(v : Int), (writeVarInt v).length⟩ ∧
    (writeVarInt v).length ≤ 5 := by
  have hv32 : v % 2 ^ 32 = v := Nat.mod_eq_of_lt (by norm_num; omega)
  have hlen : (writeVarIntAux v).length ≤ 5 := by
    have := writeVarIntAux_length 4 v (by norm_num; omega)
    omega
  unfold writeVarInt readVarInt
  rw [hv32, List.drop_zero]
  have hmain := readVarIntGo_writeVarIntAux [] v 0 0 (by omega) (by norm_num)
    (by norm_num; omega)
  simp only [List.append_nil, Nat.mul_zero, pow_zero, Nat.mul_one, Nat.zero_add] at hmain
  rw [hmain]
  have hi : toInt32 v = (v : Int) := by
    unfold toInt32
    rw [if_pos hv]
  rw [hi]
  exact ⟨rfl, hlen⟩

/-- Witness for C4's amended theorem at `v = 300`. -/
theorem varint_roundtrip_witness :
    readVarInt (writeVarInt 300) 0 = some ⟨300, 2⟩ ∧ (writeVarInt 300).length ≤ 5 := by
  obtain ⟨h1, h2⟩ := varint_roundtrip 300 (by norm_num)
  refine ⟨?_, h2⟩
  rw [h1]
  have h3 : writeVarInt 300 = [172, 2] := by simp [writeVarInt, writeVarIntAux]
  rw [h3]
  norm_num

/-- Counterexample to C4 as stated: at the claimed endpoint `v = 2 ^ 31`
the decoder returns the signed reinterpretation `-2 ^ 31`, not `2 ^ 31`. -/
theorem varint_roundtrip_cx :
    readVarInt (writeVarInt (2 ^ 31)) 0 = some ⟨-(2 ^ 31), 5⟩ ∧
    (-(2 ^ 31) : Int) ≠ ((2 ^ 31 : Nat) : Int) := by
  constructor
  · have h : writeVarInt (2 ^ 31) = [128, 128, 128, 128, 8] := by
      simp [writeVarInt, writeVarIntAux]
    rw [h]
    decide
  · decide

/-! ### Claim C10 — readVarInt totality and `null` conditions -/

/-- C10: `readVarInt` is a total function (it is defined for every buffer
and offset and, unlike a JS exception, always yields an `Option`; every
buffer access in the source is preceded by the `offset + numRead >=
buf.length` bounds check).  It returns `null` whenever the buffer ends
before a byte with a clear continuation bit is found, and whenever the
first five bytes at the offset all carry the continuation bit (so decoding
would consume more than 5 bytes). -/
theorem readVarInt_total_null (buf : List Nat) (offset : Nat) :
    ((∀ b ∈ buf.drop offset, b &&& 0x80 ≠ 0) → readVarInt buf offset = none) ∧
    (5 ≤ (buf.drop offset).length →
      (∀ b ∈ (buf.drop offset).take 5, b &&& 0x80 ≠ 0) → readVarInt buf offset = none) := by
  constructor
  · intro h
    exact readVarIntGo_none_all_cont _ 0 0 h
  · intro hlen h
    unfold readVarInt
    rw [← List.take_append_drop 5 (buf.drop offset)]
    exact readVarIntGo_none_five _ _ 0 0 (by rw [List.length_take]; omega) h

/-- Witness for C10 at two concrete buffers: one that ends mid-varint, and
one whose first five bytes all carry the continuation bit. -/
theorem readVarInt_total_null_witness :
    readVarInt [128, 128] 0 = none ∧ readVarInt [128, 128, 128, 128, 128, 0] 0 = none :=
  ⟨(readVarInt_total_null [128, 128] 0).1 (by decide),
   (readVarInt_total_null [128, 128, 128, 128, 128, 0] 0).2 (by decide) (by decide)⟩

/-! ### A model of the JavaScript values the poller manipulates -/

/-! ### Exact rational arithmetic, kernel-computable

Batteries marks the arithmetic of `ℚ` `@[irreducible]`, which blocks the
kernel evaluation our witnesses rely on, so the few operations the model
needs are spelled out over `mkRat` (which does reduce). -/

/-- The reduced rational `n / d`. -/
def qmk (n : Int) (d : Nat) : ℚ := mkRat n d

/-- Difference of two rationals. -/
def qsub (a b : ℚ) : ℚ := mkRat (a.num * (b.den : Int) - b.num * (a.den : Int)) (a.den * b.den)

/-- Product of two rationals. -/
def qmul (a b : ℚ) : ℚ := mkRat (a.num * b.num) (a.den * b.den)

/-- Strict order on rationals (core `Rat.blt`). -/
def qlt (a b : ℚ) : Bool := Rat.blt a b

/-- Floor of a rational (`fdiv` rounds toward negative infinity). -/
def qfloor (q : ℚ) : Int := q.num.fdiv q.den

/-- Absolute value of a rational. -/
def qabs (q : ℚ) : ℚ := if qlt q 0 then Rat.neg q else q

/-- Fuelled binary logarithm (`Nat.log2` is defined by well-founded
recursion, which the kernel cannot reduce). -/
def natLog2Go : Nat → Nat → Nat
  | 0, _ => 0
  | fuel + 1, n => if n ≤ 1 then 0 else natLog2Go fuel (n / 2) + 1

/-- Greatest `k` with `2 ^ k ≤ n` (and `0` for `n ≤ 1`). -/
def natLog2 (n : Nat) : Nat := natLog2Go n n

/-- Powers of two, with negative exponents. -/
def qpow2 (i : Int) : ℚ :=
  if 0 ≤ i then mkRat (Int.ofNat (2 ^ i.toNat)) 1 else mkRat 1 (2 ^ (-i).toNat)

/-- Nearest integer, ties to even — IEEE-754 round-to-nearest. -/
def roundTE (q : ℚ) : Int :=
  let f := qfloor q
  let r := qsub q (qmk f 1)
  if qlt r (qmk 1 2) then f
  else if qlt (qmk 1 2) r then f + 1
  else if f % 2 = 0 then f else f + 1

/-- Integer part of the binary logarithm of a positive rational: with
`a = ⌊log₂ num⌋` and `b = ⌊log₂ den⌋` the answer is `a - b` or `a - b - 1`,
settled by one comparison. -/
def floorLog2Q (q : ℚ) : Int :=
  let a : Int := natLog2 q.num.natAbs
  let b : Int := natLog2 q.den
  let e0 := a - b
  if qlt q (qpow2 e0) then e0 - 1 else e0

/-- JS numbers are IEEE-754 binary64: `NaN`, an infinity, or a finite
value — an exact rational (every finite double is one; `fitDouble` keeps
the representable ones).  The distinction between `+0` and `-0` is
collapsed to `0`: the poller only ever compares numbers with `===`, `>`
and truthiness, and stringifies them, on all of which the two zeros
agree. -/
inductive JsNum where
  | nan
  | inf (neg : Bool)
  | rat (q : ℚ)
deriving DecidableEq, Repr

/-- Round an exact rational to the nearest binary64 value
(round-to-nearest, ties-to-even), the conversion JS applies to every
numeric literal: overflow beyond the last finite double becomes an
infinity, the subnormal range is rounded at fixed scale `2 ^ (-1074)`, and
underflow becomes `0`. -/
def fitDouble (q : ℚ) : JsNum :=
  if q = 0 then .rat 0
  else
    let neg := qlt q 0
    let aq := qabs q
    let e := max (floorLog2Q aq) (-1022)
    let m := roundTE (qmul aq (qpow2 (52 - e)))
    let me := if m = 2 ^ 53 then ((2 ^ 52 : Int), e + 1) else (m, e)
    if me.1 = 0 then .rat 0
    else if 1023 < me.2 then .inf neg
    else .rat (qmul (qmk (if neg then -me.1 else me.1) 1) (qpow2 (me.2 - 52)))

/-- JavaScript values: `undefined`, `null`, booleans, numbers, strings,
arrays and plain objects (fields in insertion order). -/
inductive JsVal where
  | undefined
  | null
  | bool (b : Bool)
  | num (n : JsNum)
  | str (s : String)
  | arr (elems : List JsVal)
  | obj (fields : List (String × JsVal))

instance : Inhabited JsVal := ⟨JsVal.undefined⟩

/-- First binding of a key in an object's field list. -/
def lookupField : List (String × JsVal) → String → Option JsVal
  | [], _ => none
  | (k, v) :: rest, key => if k = key then some v else lookupField rest key

/-- Optional-chaining property access `x?.key`: total, `undefined` on
nullish receivers, and `undefined` for the program's property names on
primitives. -/
def getPropOpt (v : JsVal) (key : String) : JsVal :=
  match v with
  | .undefined | .null => .undefined
  | .obj fs => (lookupField fs key).getD .undefined
  | _ => .undefined

/-- Plain property access `x.key`: throws a `TypeError` on `null` /
`undefined` receivers. -/
def getProp (v : JsVal) (key : String) : Except Unit JsVal :=
  match v with
  | .undefined | .null => .error ()
  | _ => .ok (getPropOpt v key)

/-- Whether `v` is not `null` / `undefined` (property access on it cannot
throw). -/
def notNullish : JsVal → Bool
  | .undefined | .null => false
  | _ => true

/-- JS truthiness (`Boolean(v)` / an `if (v)` test): the falsy values are
`undefined`, `null`, `false`, `NaN`, `0` and the empty string. -/
def truthy : JsVal → Bool
  | .undefined | .null => false
  | .bool b => b
  | .num .nan => false
  | .num (.inf _) => true
  | .num (.rat q) => decide (q ≠ 0)
  | .str s => s != ""
  | .arr _ => true
  | .obj _ => true

/-- Character-list prefix test (JS `String.prototype.startsWith`). -/
def charsStartWith : List Char → List Char → Bool
  | [], _ => true
  | _ :: _, [] => false
  | p :: ps, c :: cs => p == c && charsStartWith ps cs

/-- Prefix test `s.startsWith(pre)`. -/
def jsStartsWith (s pre : String) : Bool :=
  charsStartWith pre.data s.data

/-- Lower-casing `s.toLowerCase()` (ASCII case mapping — the poller only
compares against `"false"`, and no character outside ASCII lower-cases
into `"false"`). -/
def jsToLower (s : String) : String :=
  ⟨s.data.map Char.toLower⟩

/-- The JS WhiteSpace ∪ LineTerminator set used by
`String.prototype.trim` and by `Number(string)`: TAB LF VT FF CR SP,
NBSP, OGHAM SPACE MARK, the U+2000..U+200A spaces, LINE and PARAGRAPH
SEPARATOR, NARROW NBSP, MEDIUM MATHEMATICAL SPACE, IDEOGRAPHIC SPACE and
the BOM. -/
def jsWhite (c : Char) : Bool :=
  [9, 10, 11, 12, 13, 32, 0xA0, 0x1680, 0x2028, 0x2029, 0x202F, 0x205F, 0x3000,
    0xFEFF].contains c.toNat
  || (decide (0x2000 ≤ c.toNat) && decide (c.toNat ≤ 0x200A))

/-- Trimming `s.trim()`: strip leading and trailing JS whitespace. -/
def jsTrim (s : String) : String :=
  ⟨((s.data.dropWhile jsWhite).reverse.dropWhile jsWhite).reverse⟩

/-- Value of a (non-empty) run of decimal digits. -/
def digitsVal (ds : List Char) : Nat :=
  ds.foldl (fun a c => a * 10 + (c.toNat - 48)) 0

/-- Exponent part of the `StringNumericLiteral` grammar — the empty rest,
or `(e|E) [+|-] DecimalDigits` consuming the whole rest. -/
def parseExp : List Char → Option Int
  | [] => some 0
  | c :: rest =>
    if c = 'e' ∨ c = 'E' then
      match rest with
      | '+' :: ds =>
        if ds ≠ [] ∧ ds.all Char.isDigit then some (Int.ofNat (digitsVal ds)) else none
      | '-' :: ds =>
        if ds ≠ [] ∧ ds.all Char.isDigit then some (-(Int.ofNat (digitsVal ds))) else none
      | ds =>
        if ds ≠ [] ∧ ds.all Char.isDigit then some (Int.ofNat (digitsVal ds)) else none
    else none

/-- Body of an unsigned decimal literal,
`DecimalDigits [. [DecimalDigits]] [ExponentPart]` or
`. DecimalDigits [ExponentPart]`: the significand read as an integer, and
the decimal exponent (literal exponent minus fraction length). -/
def parseDecBody (cs : List Char) : Option (Nat × Int) :=
  let ip := cs.takeWhile Char.isDigit
  let r1 := cs.dropWhile Char.isDigit
  match r1 with
  | '.' :: r2 =>
    let fp := r2.takeWhile Char.isDigit
    let r3 := r2.dropWhile Char.isDigit
    if ip = [] ∧ fp = [] then none
    else
      match parseExp r3 with
      | some e => some (digitsVal (ip ++ fp), e - fp.length)
      | none => none
  | _ =>
    if ip = [] then none
    else
      match parseExp r1 with
      | some e => some (digitsVal ip, e)
      | none => none

/-- Mathematical value `± sig · 10 ^ e` of a decimal literal, rounded to
binary64 as `Number(string)` rounds it. -/
def decValue (neg : Bool) (sig : Nat) (e : Int) : JsNum :=
  let q : ℚ :=
    if 0 ≤ e then qmk (Int.ofNat (sig * 10 ^ e.toNat)) 1
    else qmk (Int.ofNat sig) (10 ^ (-e).toNat)
  fitDouble (if neg then Rat.neg q else q)

/-- Value of one digit in the given radix (case-insensitive letters). -/
def radixDigit (radix : Nat) (c : Char) : Option Nat :=
  let v :=
    if c.isDigit then c.toNat - 48
    else if decide ('a' ≤ c) && decide (c ≤ 'z') then c.toNat - 87
    else if decide ('A' ≤ c) && decide (c ≤ 'Z') then c.toNat - 55
    else 99
  if v < radix then some v else none

/-- Value of a digit run in the given radix; `none` on a bad digit. -/
def radixVal (radix : Nat) : List Char → Option Nat
  | [] => some 0
  | c :: rest =>
    match radixDigit radix c, radixVal radix rest with
    | some d, some a => some (d * radix ^ rest.length + a)
    | _, _ => none

/-- Value of the digits of a `0x`/`0o`/`0b` literal (which admits no sign,
no fraction and no exponent): `NaN` when empty or containing a bad digit. -/
def radixToNum (radix : Nat) (ds : List Char) : JsNum :=
  if ds = [] then .nan
  else
    match radixVal radix ds with
    | some v => fitDouble (qmk (Int.ofNat v) 1)
    | none => .nan

/-- String-to-number conversion `Number(string)`, per the
`StringNumericLiteral` grammar: trimmed of JS whitespace; empty is `0`;
`0x`/`0X`, `0o`/`0O`, `0b`/`0B` digit runs; otherwise an optional sign
followed by `Infinity` or an unsigned decimal literal; anything else is
`NaN`.  The mathematical value is rounded to binary64 (`fitDouble`), so
overflowing literals give an infinity and underflowing ones give `0`. -/
def strToNum (s : String) : JsNum :=
  match (jsTrim s).data with
  | [] => JsNum.rat 0
  | '0' :: 'x' :: rest => radixToNum 16 rest
  | '0' :: 'X' :: rest => radixToNum 16 rest
  | '0' :: 'o' :: rest => radixToNum 8 rest
  | '0' :: 'O' :: rest => radixToNum 8 rest
  | '0' :: 'b' :: rest => radixToNum 2 rest
  | '0' :: 'B' :: rest => radixToNum 2 rest
  | t =>
    let sb : Bool × List Char :=
      match t with
      | '+' :: r => (false, r)
      | '-' :: r => (true, r)
      | r => (false, r)
    if sb.2 = "Infinity".data then JsNum.inf sb.1
    else
      match parseDecBody sb.2 with
      | some (sig, e) => decValue sb.1 sig e
      | none => JsNum.nan

/-- Fuelled extraction of the multiplicity of `p` in `n`: the exponent and
the remaining cofactor. -/
def stripFactor : Nat → Nat → Nat → Nat × Nat
  | 0, _, n => (0, n)
  | fuel + 1, p, n =>
    if n % p = 0 ∧ n ≠ 0 then
      let kr := stripFactor fuel p (n / p)
      (kr.1 + 1, kr.2)
    else (0, n)

/-- Decimal rendering of a finite number.  Every double is `m / (2^a·5^b)`
in lowest terms, so it has a finite exact decimal expansion, which is what
this produces (sign, integer digits, then the fraction digits when any).
JS's `Number::toString` instead prints the shortest decimal that reads
back to the same double, and switches to exponential notation for very
large or small magnitudes — but the poller only ever observes these
strings through `Number(...)` again (the array-join in `ToPrimitive`),
and both spellings read back to the same double, so the exact expansion
is observationally equivalent there.  A rational that is not a double
value cannot arise from any JS execution; such a value renders as a
non-numeric placeholder. -/
def ratToDecString (q : ℚ) : String :=
  let n := q.num.natAbs
  let d := q.den
  let a2 := stripFactor d 2 d
  let b5 := stripFactor a2.2 5 a2.2
  if b5.2 ≠ 1 then "#"
  else
    let a := a2.1
    let b := b5.1
    let k := max a b
    let scaled := n * 2 ^ (k - a) * 5 ^ (k - b)
    let digits := Nat.toDigits 10 scaled
    let sign := if q.num < 0 then "-" else ""
    if k = 0 then sign ++ ⟨digits⟩
    else
      let padded :=
        if digits.length ≤ k then List.replicate (k + 1 - digits.length) '0' ++ digits
        else digits
      let ipart := padded.take (padded.length - k)
      let fpart := padded.drop (padded.length - k)
      sign ++ ⟨ipart⟩ ++ "." ++ ⟨fpart⟩

/-- Number-to-string conversion, as observed through `Number(...)` (see
`ratToDecString`). -/
def jsNumToString : JsNum → String
  | .nan => "NaN"
  | .inf neg => if neg then "-Infinity" else "Infinity"
  | .rat q => ratToDecString q

mutual

/-- String conversion of one array element for `Array.prototype.join`:
`undefined` and `null` render empty, a nested array joins recursively,
and a plain object renders `"[object Object]"`. -/
def jsElemStr : JsVal → String
  | .undefined => ""
  | .null => ""
  | .bool b => if b then "true" else "false"
  | .num n => jsNumToString n
  | .str s => s
  | .arr l => jsJoinList l
  | .obj _ => "[object Object]"

/-- Comma-join `Array.prototype.join(",")`, the `toString` that
`ToPrimitive` reaches for an array. -/
def jsJoinList : List JsVal → String
  | [] => ""
  | [v] => jsElemStr v
  | v :: w :: rest => jsElemStr v ++ "," ++ jsJoinList (w :: rest)

end

/-- Numeric coercion `Number(v)` — JS ToNumber: `undefined ↦ NaN`,
`null ↦ 0`, booleans to `1`/`0`, strings via the numeric-string grammar,
arrays via `ToPrimitive` (no own `valueOf`, so `Array.prototype.toString`
= the comma-join) and then the string grammar, and plain objects via
`"[object Object]"`, which is `NaN`.  (The model's objects are plain data
— the poller's values come from `JSON.parse` — so no custom `valueOf` /
`Symbol.toPrimitive` can intervene.) -/
def toNumber : JsVal → JsNum
  | .undefined => .nan
  | .null => .rat 0
  | .bool b => .rat (if b then 1 else 0)
  | .num n => n
  | .str s => strToNum s
  | .arr l => strToNum (jsJoinList l)
  | .obj _ => .nan

/-- Finiteness test `Number.isFinite(v)` — no coercion: true exactly on
finite numbers. -/
def isFiniteNum : JsVal → Bool
  | .num (.rat _) => true
  | _ => false

/-- Positivity `n > 0` with JS semantics (`NaN > 0` is false, `Infinity >
0` is true). -/
def jnPos : JsNum → Bool
  | .nan => false
  | .inf neg => !neg
  | .rat q => qlt 0 q

/-- Positivity `v > 0` for a number-or-`undefined` JS value. -/
def jnPosVal : JsVal → Bool
  | .num n => jnPos n
  | _ => false

/-- `a || b` — JS short-circuit or, returning one of the operands. -/
def jsOr (a b : JsVal) : JsVal :=
  if truthy a then a else b

/-! ### The poller's pure target-handling functions -/

/-- `isEnabled(server)` (source lines 35-47): default enabled when the
flag is missing; `false`, `"false"` (any case) and the number `0` disable. -/
def isEnabled (server : JsVal) : Bool :=
  match getPropOpt server "enabled" with  -- server?.enabled
  | .undefined | .null => true
  | .bool b => b
  | .str s => if jsToLower s = "false" then false else true
  | .num (.rat q) => decide (q ≠ 0)
  | _ => true

/-- `server.ip || server.host || (server.port ? '127.0.0.1' : undefined)`
(source line 113). -/
def defaultedHost (ip h p : JsVal) : JsVal :=
  jsOr ip (jsOr h (if truthy p then .str "127.0.0.1" else .undefined))

/-- `server.port !== undefined ? Number(server.port) : undefined`
(source line 114). -/
def portValOf (p : JsVal) : JsVal :=
  match p with
  | .undefined => .undefined
  | _ => .num (toNumber p)

/-- `pickHostPort(server)` (source lines 111-116): `ip`/`host` with a
loopback default when only a (truthy) `port` is present; the port is
`Number(server.port)` or `undefined`. -/
def pickHostPort (server : JsVal) : Except Unit (JsVal × JsVal) := do
  let ip ← getProp server "ip"
  let h ← getProp server "host"
  let p ← getProp server "port"
  return (defaultedHost ip h p, portValOf p)

/-- `typeof u === 'string' && u.startsWith('http')` (source lines 56, 343). -/
def startsWithHttp (v : JsVal) : Bool :=
  match v with
  | .str s => jsStartsWith s "http"
  | _ => false

/-- `v === "lit"` — strict equality against a string literal. -/
def strictEqStr (v : JsVal) (lit : String) : Bool :=
  match v with
  | .str s => s == lit
  | _ => false

/-- `shouldSkipPoll(server)` (source lines 49-61): skip the all-zeros
wildcard host, and skip targets with neither a usable URL nor a usable
host+port. -/
def shouldSkipPoll (server : JsVal) : Except Unit Bool := do
  let ip ← getProp server "ip"
  let h ← getProp server "host"
  let host := jsOr ip h
  if strictEqStr host "0.0.0.0" then
    return true
  else
    let url ← getProp server "url"
    let hasUrl := startsWithHttp url
    let (h2, p) ← pickHostPort server
    let hasHostPort := truthy h2 && isFiniteNum p && jnPosVal p
    return !(hasUrl || hasHostPort)

/-- The three outcomes of the Checker Router. -/
inductive CheckerKind where
  | http
  | tcp
  | none
deriving DecidableEq, Repr

/-- `chooseChecker(server)` (source lines 341-351). -/
def chooseChecker (server : JsVal) : Except Unit CheckerKind := do
  let url ← getProp server "url"
  if startsWithHttp url then return .http
  else
    let (host, port) ← pickHostPort server
    if truthy host && isFiniteNum port && jnPosVal port then return .tcp
    else return .none

/-- The Check Result objects the checkers and `runCheck`'s short-circuit
branches return.  `rttMs` is wall-clock time and is not modelled (no claim
depends on it); the other fields are the object's literal fields, with
`none` for an absent (`undefined`) field. -/
structure CheckResult where
  online : Bool
  players : Option JsVal := Option.none
  version : Option JsVal := Option.none
  disabled : Bool := false
  skipped : Bool := false

/-- What `runCheck(server)` (source lines 353-383) does before/without any
network I/O: either it returns a result outright (`ret`, the disabled /
skipped / no-checker branches — no socket or HTTP request is ever made),
or it dispatches to one of the two network checkers. -/
inductive RunAction where
  | ret (r : CheckResult)
  | http (url : JsVal) (timeoutMs : JsNum)
  | tcp (host port : JsVal) (timeoutMs : JsNum)

/-- `runCheck(server)` up to its I/O dispatch (source lines 353-383). -/
def runCheckPlan (server : JsVal) : Except Unit RunAction := do
  let tmv ← getProp server "timeoutMs"
  let timeoutMs := if jnPos (toNumber tmv) then toNumber tmv else .rat 3500
  if !isEnabled server then
    return .ret { online := false, disabled := true }
  else
    let skip ← shouldSkipPoll server
    if skip then
      return .ret { online := false, skipped := true }
    else
      match ← chooseChecker server with
      | .http => do
        let url ← getProp server "url"
        return .http url timeoutMs
      | .tcp => do
        let (h, p) ← pickHostPort server
        return .tcp h p timeoutMs
      | .none => return .ret { online := false }

/-- Test for a string value (`typeof v === 'string'`). -/
def isStr : JsVal → Bool
  | .str _ => true
  | _ => false

/-- Finiteness of a number (`NaN` and the infinities are not finite). -/
def finiteJN : JsNum → Bool
  | .rat _ => true
  | _ => false

/-- Node's `validatePort`, which `socket.connect(port, host)` applies to
the (already `Number(...)`-coerced) port: it must satisfy
`+port === (+port >>> 0)` and `port <= 65535` — an integer in
`[0, 65535]` — else connect throws `ERR_SOCKET_BAD_PORT` synchronously. -/
def validPortNum : JsNum → Bool
  | .rat q => q.den == 1 && decide (0 ≤ q.num) && decide (q.num ≤ 65535)
  | _ => false

/-- Port validation for the value `checkTcp` hands to `socket.connect`:
numbers per `validPortNum`; Node also admits non-blank numeric strings
after coercion (unreachable here, since `pickHostPort` always coerces);
every other type throws. -/
def validConnectPort : JsVal → Bool
  | .num n => validPortNum n
  | .str s => !(jsTrim s == "") && validPortNum (strToNum s)
  | _ => false

/-- How the promise returned by `runCheck(server)` settles. -/
inductive CheckOutcome where
  | resolved (r : CheckResult)
  | rejected

/-- Settlement of `runCheck(server)`, where `io` supplies the network
outcome of whichever checker was dispatched to (keeping `io` arbitrary
only strengthens the theorems; the real checkers never produce `players`
or `version` — `chooseChecker` never selects the Minecraft checker).
`checkHttp` never rejects: every failure, including a synchronous
invalid-URL throw from `fetch`, lands in its `try`/`catch`, which resolves
`{online:false}`.  `checkTcp` (source lines 144-170) rejects exactly when
its promise executor throws synchronously: `socket.setTimeout(timeoutMs)`
throws `ERR_OUT_OF_RANGE` for a non-finite timeout (the dispatch guard
`Number(server.timeoutMs) > 0` lets `Infinity` through), and
`socket.connect(port, host)` throws `ERR_SOCKET_BAD_PORT` on a bad port
(see `validPortNum`) or `ERR_INVALID_ARG_TYPE` on a truthy non-string
host (the synchronous hostname validation of the dns lookup).  That
promise has no rejection handler, so the error propagates to the pool
mapper's `catch`. -/
def runCheckResult (server : JsVal) (io : CheckResult) : Except Unit CheckOutcome := do
  match ← runCheckPlan server with
  | .ret r => return .resolved r
  | .http _ _ => return .resolved io
  | .tcp host port tmo =>
    if finiteJN tmo && isStr host && validConnectPort port then return .resolved io
    else return .rejected

/-! ### Reduction lemmas for the `Except`-modelled property accesses -/

theorem getProp_eq_ok {v : JsVal} (h : notNullish v = true) (k : String) :
    getProp v k = .ok (getPropOpt v k) := by
  cases v <;> first | rfl | simp [notNullish] at h

theorem except_bind_ok {ε α β : Type} (a : α) (f : α → Except ε β) :
    (Except.ok a : Except ε α) >>= f = f a := rfl

theorem except_pure_eq {ε α : Type} (a : α) : (pure a : Except ε α) = .ok a := rfl

theorem pickHostPort_ok {server : JsVal} (h : notNullish server = true) :
    pickHostPort server = .ok
      (defaultedHost (getPropOpt server "ip") (getPropOpt server "host")
        (getPropOpt server "port"),
       portValOf (getPropOpt server "port")) := by
  unfold pickHostPort
  rw [getProp_eq_ok h, except_bind_ok, getProp_eq_ok h, except_bind_ok,
    getProp_eq_ok h, except_bind_ok]
  rfl

theorem shouldSkipPoll_zero {server : JsVal} (h : notNullish server = true)
    (hz : strictEqStr (jsOr (getPropOpt server "ip") (getPropOpt server "host"))
      "0.0.0.0" = true) :
    shouldSkipPoll server = .ok true := by
  unfold shouldSkipPoll
  rw [getProp_eq_ok h, except_bind_ok, getProp_eq_ok h, except_bind_ok]
  simp only [hz, if_pos, except_pure_eq]

theorem shouldSkipPoll_unaddressable {server : JsVal} {host port : JsVal}
    (h : notNullish server = true)
    (hz : strictEqStr (jsOr (getPropOpt server "ip") (getPropOpt server "host"))
      "0.0.0.0" = false)
    (hurl : startsWithHttp (getPropOpt server "url") = false)
    (hpick : pickHostPort server = .ok (host, port))
    (hhp : (truthy host && isFiniteNum port && jnPosVal port) = false) :
    shouldSkipPoll server = .ok true := by
  unfold shouldSkipPoll
  rw [getProp_eq_ok h, except_bind_ok, getProp_eq_ok h, except_bind_ok]
  simp only [hz, Bool.false_eq_true, if_false, getProp_eq_ok h, except_bind_ok,
    hpick, hurl, hhp, except_pure_eq]
  rfl

theorem chooseChecker_http {server : JsVal} (h : notNullish server = true)
    (hu : startsWithHttp (getPropOpt server "url") = true) :
    chooseChecker server = .ok .http := by
  unfold chooseChecker
  rw [getProp_eq_ok h, except_bind_ok]
  simp only [hu, if_pos, except_pure_eq]

theorem chooseChecker_hostPort {server : JsVal} {host port : JsVal}
    (h : notNullish server = true)
    (hu : startsWithHttp (getPropOpt server "url") = false)
    (hpick : pickHostPort server = .ok (host, port)) :
    chooseChecker server =
      .ok (if truthy host && isFiniteNum port && jnPosVal port then .tcp else .none) := by
  unfold chooseChecker
  rw [getProp_eq_ok h, except_bind_ok]
  simp only [hu, Bool.false_eq_true, if_false, hpick, except_bind_ok, except_pure_eq]
  split <;> rfl

/-! ### Claim C7 — the Checker Router -/

/-- C7 (amended): `chooseChecker` is pure (it is a function of its
argument alone) and, for every descriptor on which JS property access is
defined — that is, every non-`null`/`undefined` value, including
non-object primitives and objects with fields of the wrong type — it
returns one of the three outcomes without throwing, with the claimed
precedence: a usable HTTP(S) URL selects the HTTP checker; otherwise a
usable host (loopback-defaulted when only a truthy port is present) with a
positive finite port selects the TCP checker; otherwise no checker.
Applied to `null`/`undefined` it throws a `TypeError` instead of degrading
to the no-checker case (see `chooseChecker_cx`). -/
theorem chooseChecker_total_precedence (server : JsVal) (hnn : notNullish server = true) :
    (∃ c, chooseChecker server = .ok c) ∧
    (startsWithHttp (getPropOpt server "url") = true →
      chooseChecker server = .ok .http) ∧
    (∀ host port, startsWithHttp (getPropOpt server "url") = false →
      pickHostPort server = .ok (host, port) →
      ((truthy host && isFiniteNum port && jnPosVal port) = true →
        chooseChecker server = .ok .tcp) ∧
      ((truthy host && isFiniteNum port && jnPosVal port) = false →
        chooseChecker server = .ok .none)) := by
  refine ⟨?_, fun hu => chooseChecker_http hnn hu, ?_⟩
  · by_cases hu : startsWithHttp (getPropOpt server "url") = true
    · exact ⟨.http, chooseChecker_http hnn hu⟩
    · have hpick := pickHostPort_ok hnn
      have hcc := chooseChecker_hostPort hnn (by simpa using hu) hpick
      exact ⟨_, hcc⟩
  · intro host port hu hpick
    have := chooseChecker_hostPort hnn hu hpick
    constructor
    · intro hc
      rw [this, hc]
      rfl
    · intro hc
      rw [this, hc]
      rfl

/-- Witness for C7's amended theorem at concrete descriptors: an HTTPS
URL; a plain host+port pair; two descriptors with in-grammar but
non-canonical ports — the string `"1e3"` (`Number("1e3") = 1000`) and the
one-element array `[5]` (`ToPrimitive` joins it to `"5"`, so
`Number([5]) = 5`) — both routed to TCP; and a host with no port. -/
theorem chooseChecker_total_precedence_witness :
    chooseChecker (JsVal.obj [("url", JsVal.str "https://example.org")]) =
      .ok .http ∧
    chooseChecker (JsVal.obj [("host", JsVal.str "example.com"),
      ("port", JsVal.num (JsNum.rat 25565))]) = .ok .tcp ∧
    chooseChecker (JsVal.obj [("ip", JsVal.str "h"),
      ("port", JsVal.str "1e3")]) = .ok .tcp ∧
    chooseChecker (JsVal.obj [("ip", JsVal.str "h"),
      ("port", JsVal.arr [JsVal.num (JsNum.rat 5)])]) = .ok .tcp ∧
    chooseChecker (JsVal.obj [("host", JsVal.str "example.com")]) = .ok .none := by
  refine ⟨(chooseChecker_total_precedence
      (JsVal.obj [("url", JsVal.str "https://example.org")]) rfl).2.1 rfl, ?_, ?_, ?_, ?_⟩
  · exact ((chooseChecker_total_precedence (JsVal.obj [("host", JsVal.str "example.com"),
      ("port", JsVal.num (JsNum.rat 25565))]) rfl).2.2 (JsVal.str "example.com")
      (JsVal.num (JsNum.rat 25565)) rfl rfl).1 rfl
  · exact ((chooseChecker_total_precedence (JsVal.obj [("ip", JsVal.str "h"),
      ("port", JsVal.str "1e3")]) rfl).2.2 (JsVal.str "h")
      (JsVal.num (JsNum.rat 1000)) rfl rfl).1 rfl
  · exact ((chooseChecker_total_precedence (JsVal.obj [("ip", JsVal.str "h"),
      ("port", JsVal.arr [JsVal.num (JsNum.rat 5)])]) rfl).2.2 (JsVal.str "h")
      (JsVal.num (JsNum.rat 5)) rfl rfl).1 rfl
  · exact ((chooseChecker_total_precedence
      (JsVal.obj [("host", JsVal.str "example.com")]) rfl).2.2 (JsVal.str "example.com")
      JsVal.undefined rfl rfl).2 rfl

/-- Counterexample to C7 as stated: on the malformed descriptors `null`
and `undefined` the router throws a `TypeError` (reading `server.url`)
rather than returning the no-checker outcome. -/
theorem chooseChecker_cx :
    chooseChecker JsVal.null = .error () ∧ chooseChecker JsVal.undefined = .error () :=
  ⟨rfl, rfl⟩

/-! ### Claim C8 — runCheck short-circuits without I/O -/

theorem runCheckPlan_disabled {server : JsVal} (h : notNullish server = true)
    (hd : isEnabled server = false) :
    runCheckPlan server = .ok (.ret { online := false, disabled := true }) := by
  unfold runCheckPlan
  rw [getProp_eq_ok h, except_bind_ok]
  simp only [hd, Bool.not_false, if_pos, except_pure_eq]

theorem runCheckPlan_skip {server : JsVal} (h : notNullish server = true)
    (he : isEnabled server = true) (hs : shouldSkipPoll server = .ok true) :
    runCheckPlan server = .ok (.ret { online := false, skipped := true }) := by
  unfold runCheckPlan
  rw [getProp_eq_ok h, except_bind_ok]
  simp only [he, Bool.not_true, Bool.false_eq_true, if_false, hs, except_bind_ok,
    if_pos, except_pure_eq]

/-- C8: a disabled target makes `runCheck` return
`{online:false, disabled:true}` with no I/O; an enabled target whose
effective host (`server.ip || server.host`) is the wildcard `"0.0.0.0"`,
or that carries neither a usable URL nor a usable host+port, makes it
return `{online:false, skipped:true}` with no I/O.  "No I/O" is the
`RunAction.ret` constructor: `runCheck` returns that object before
dispatching to any network checker, so the result is the same whatever any
checker would have produced (`runCheckResult` is constant in `io`). -/
theorem runCheck_short_circuit (server : JsVal) (hnn : notNullish server = true) :
    (isEnabled server = false →
      runCheckPlan server = .ok (.ret { online := false, disabled := true }) ∧
      ∀ io, runCheckResult server io = .ok (.resolved { online := false, disabled := true })) ∧
    (isEnabled server = true →
      strictEqStr (jsOr (getPropOpt server "ip") (getPropOpt server "host"))
        "0.0.0.0" = true →
      runCheckPlan server = .ok (.ret { online := false, skipped := true }) ∧
      ∀ io, runCheckResult server io = .ok (.resolved { online := false, skipped := true })) ∧
    (∀ host port, isEnabled server = true →
      startsWithHttp (getPropOpt server "url") = false →
      pickHostPort server = .ok (host, port) →
      (truthy host && isFiniteNum port && jnPosVal port) = false →
      runCheckPlan server = .ok (.ret { online := false, skipped := true }) ∧
      ∀ io, runCheckResult server io = .ok (.resolved { online := false, skipped := true })) := by
  refine ⟨fun hd => ?_, fun he hz => ?_, fun host port he hurl hpick hhp => ?_⟩
  · have hp := runCheckPlan_disabled hnn hd
    refine ⟨hp, fun io => ?_⟩
    unfold runCheckResult
    rw [hp, except_bind_ok]
    rfl
  · have hp := runCheckPlan_skip hnn he (shouldSkipPoll_zero hnn hz)
    refine ⟨hp, fun io => ?_⟩
    unfold runCheckResult
    rw [hp, except_bind_ok]
    rfl
  · by_cases hz : strictEqStr (jsOr (getPropOpt server "ip") (getPropOpt server "host"))
      "0.0.0.0" = true
    · have hp := runCheckPlan_skip hnn he (shouldSkipPoll_zero hnn hz)
      refine ⟨hp, fun io => ?_⟩
      unfold runCheckResult
      rw [hp, except_bind_ok]
      rfl
    · have hp := runCheckPlan_skip hnn he
        (shouldSkipPoll_unaddressable hnn (by simpa using hz) hurl hpick hhp)
      refine ⟨hp, fun io => ?_⟩
      unfold runCheckResult
      rw [hp, except_bind_ok]
      rfl

/-- Witness for C8 at concrete targets: a disabled one, an enabled
wildcard-host one, and an enabled one with no address at all. -/
theorem runCheck_short_circuit_witness :
    runCheckPlan (JsVal.obj [("enabled", JsVal.bool false)]) =
      .ok (.ret { online := false, disabled := true }) ∧
    runCheckPlan (JsVal.obj [("ip", JsVal.str "0.0.0.0"),
      ("port", JsVal.num (JsNum.rat 80))]) =
      .ok (.ret { online := false, skipped := true }) ∧
    runCheckPlan (JsVal.obj [("name", JsVal.str "placeholder")]) =
      .ok (.ret { online := false, skipped := true }) := by
  refine ⟨((runCheck_short_circuit
      (JsVal.obj [("enabled", JsVal.bool false)]) rfl).1 rfl).1, ?_, ?_⟩
  · exact ((runCheck_short_circuit (JsVal.obj [("ip", JsVal.str "0.0.0.0"),
      ("port", JsVal.num (JsNum.rat 80))]) rfl).2.1 rfl rfl).1
  · exact ((runCheck_short_circuit (JsVal.obj [("name", JsVal.str "placeholder")])
      rfl).2.2 JsVal.undefined JsVal.undefined rfl rfl rfl rfl).1

/-! ### The Concurrency Pool (`mapWithConcurrency`, source lines 120-138)

JavaScript runs the worker closures single-threaded: execution interleaves
only at `await` points.  Each worker loop iteration performs two atomic
actions: grab the next index from the shared cursor (`const idx = i++`,
returning when `idx >= items.length`), then — after the suspension of
`await mapper(items[idx], idx)` — store into `results[idx]` (the `catch`
stores the `{ __error: err }` marker instead of rethrowing).  We model
this as a small-step transition system over all interleavings; `Promise.all`
returns exactly when every worker has returned (`PoolDone`). -/

/-- One worker's position in its loop. -/
inductive WStatus where
  | idle
  | pending (idx : Nat)
  | done
deriving DecidableEq, Repr

/-- Pool state: the shared cursor `i`, the worker tasks, and `results`. -/
structure PoolState (ρ : Type) where
  cursor : Nat
  workers : List WStatus
  results : List (Option ρ)

/-- The value stored at `results[idx]`: `await mapper(items[idx], idx)`,
with the `catch` turning a thrown/rejected error into the error marker.
The out-of-range branch is unreachable (the pool never stores an index
`≥ items.length`); `default` keeps the function total. -/
def poolRun {α ρ ε : Type} [Inhabited ρ] (items : List α)
    (mapper : α → Nat → Except ε ρ) (errMarker : ε → ρ) (i : Nat) : ρ :=
  match items[i]? with
  | some a =>
    match mapper a i with
    | .ok v => v
    | .error e => errMarker e
  | none => default

/-- The pool's atomic steps, for `n = items.length`. -/
inductive PoolStep {ρ : Type} (run : Nat → ρ) (n : Nat) :
    PoolState ρ → PoolState ρ → Prop where
  | fetch (s : PoolState ρ) (w : Nat) (hw : s.workers[w]? = some .idle) :
      PoolStep run n s
        ⟨s.cursor + 1,
         s.workers.set w (if s.cursor < n then .pending s.cursor else .done),
         s.results⟩
  | complete (s : PoolState ρ) (w idx : Nat) (hw : s.workers[w]? = some (.pending idx)) :
      PoolStep run n s
        ⟨s.cursor, s.workers.set w .idle, s.results.set idx (some (run idx))⟩

/-- `new Array(items.length)` plus `Math.min(limit, items.length)` fresh
workers and the cursor at 0. -/
def initPool (ρ : Type) (K n : Nat) : PoolState ρ :=
  ⟨0, List.replicate (min K n) .idle, List.replicate n none⟩

/-- Any interleaving of the workers' atomic actions. -/
def PoolReachable {ρ : Type} (run : Nat → ρ) (n K : Nat) (s : PoolState ρ) : Prop :=
  Relation.ReflTransGen (PoolStep run n) (initPool ρ K n) s

/-- Every worker has returned — the condition under which
`await Promise.all(workers)` resolves and the pool returns `results`. -/
def PoolDone {ρ : Type} (s : PoolState ρ) : Prop :=
  ∀ st ∈ s.workers, st = WStatus.done

theorem lt_length_of_getElem? {α : Type} {l : List α} {n : Nat} {a : α}
    (h : l[n]? = some a) : n < l.length := by
  by_contra hn
  rw [List.getElem?_eq_none (Nat.le_of_not_lt hn)] at h
  cases h

/-- The inductive invariant of the pool. -/
structure PoolInv {ρ : Type} (run : Nat → ρ) (n K : Nat) (s : PoolState ρ) : Prop where
  rlen : s.results.length = n
  wlen : s.workers.length = min K n
  fetched : ∀ idx : Nat, idx < s.cursor → idx < n →
    s.results[idx]? = some (some (run idx)) ∨
      ∃ w : Nat, s.workers[w]? = some (WStatus.pending idx)
  pend : ∀ w idx : Nat, s.workers[w]? = some (WStatus.pending idx) →
    idx < n ∧ idx < s.cursor
  doneCur : ∀ w : Nat, s.workers[w]? = some WStatus.done → n ≤ s.cursor

theorem poolInv_init {ρ : Type} (run : Nat → ρ) (n K : Nat) :
    PoolInv run n K (initPool ρ K n) := by
  refine ⟨List.length_replicate _ _, List.length_replicate _ _, ?_, ?_, ?_⟩
  · intro idx h _
    exact absurd h (by simp [initPool])
  · intro w idx hw
    rw [initPool, List.getElem?_replicate] at hw
    split at hw <;> cases hw
  · intro w hw
    rw [initPool, List.getElem?_replicate] at hw
    split at hw <;> cases hw

theorem poolInv_step {ρ : Type} {run : Nat → ρ} {n K : Nat} {s s' : PoolState ρ}
    (hinv : PoolInv run n K s) (hstep : PoolStep run n s s') : PoolInv run n K s' := by
  cases hstep with
  | fetch w hw =>
    have hwlt : w < s.workers.length := lt_length_of_getElem? hw
    refine ⟨hinv.rlen, by simpa using hinv.wlen, ?_, ?_, ?_⟩
    · intro idx hc hn
      dsimp only at hc ⊢
      rcases Nat.lt_or_ge idx s.cursor with hlt | hge
      · rcases hinv.fetched idx hlt hn with hres | ⟨w', hw'⟩
        · exact Or.inl hres
        · refine Or.inr ⟨w', ?_⟩
          have hne : w ≠ w' := fun he => by rw [← he, hw] at hw'; cases hw'
          simpa [List.getElem?_set_ne hne] using hw'
      · have hidx : idx = s.cursor := by omega
        subst hidx
        refine Or.inr ⟨w, ?_⟩
        rw [List.getElem?_set_self hwlt, if_pos hn]
    · intro w' idx hw'
      dsimp only at hw' ⊢
      by_cases he : w = w'
      · subst he
        rw [List.getElem?_set_self hwlt] at hw'
        split at hw'
        · cases hw'
          omega
        · cases hw'
      · rw [List.getElem?_set_ne he] at hw'
        have := hinv.pend w' idx hw'
        omega
    · intro w' hw'
      dsimp only at hw' ⊢
      by_cases he : w = w'
      · subst he
        rw [List.getElem?_set_self hwlt] at hw'
        split at hw'
        · cases hw'
        · omega
      · rw [List.getElem?_set_ne he] at hw'
        have := hinv.doneCur w' hw'
        omega
  | complete w idx hw =>
    have hwlt : w < s.workers.length := lt_length_of_getElem? hw
    have hidx := hinv.pend w idx hw
    have hidxlen : idx < s.results.length := by rw [hinv.rlen]; exact hidx.1
    refine ⟨by simpa using hinv.rlen, by simpa using hinv.wlen, ?_, ?_, ?_⟩
    · intro idx' hc hn
      dsimp only at hc ⊢
      by_cases he : idx' = idx
      · subst he
        exact Or.inl (by rw [List.getElem?_set_self hidxlen])
      · rcases hinv.fetched idx' hc hn with hres | ⟨w', hw'⟩
        · exact Or.inl (by rwa [List.getElem?_set_ne (fun h => he h.symm)])
        · refine Or.inr ⟨w', ?_⟩
          have hne : w ≠ w' := by
            intro hww
            rw [← hww, hw] at hw'
            cases hw'
            exact he rfl
          simpa [List.getElem?_set_ne hne] using hw'
    · intro w' idx' hw'
      dsimp only at hw' ⊢
      by_cases he : w = w'
      · subst he
        rw [List.getElem?_set_self hwlt] at hw'
        cases hw'
      · rw [List.getElem?_set_ne he] at hw'
        exact hinv.pend w' idx' hw'
    · intro w' hw'
      dsimp only at hw' ⊢
      by_cases he : w = w'
      · subst he
        rw [List.getElem?_set_self hwlt] at hw'
        cases hw'
      · rw [List.getElem?_set_ne he] at hw'
        exact hinv.doneCur w' hw'

theorem poolInv_reachable {ρ : Type} {run : Nat → ρ} {n K : Nat} {s : PoolState ρ}
    (hr : PoolReachable run n K s) : PoolInv run n K s := by
  induction hr with
  | refl => exact poolInv_init run n K
  | tail _ hstep ih => exact poolInv_step ih hstep

/-- At any drained (all-workers-returned) state of any interleaving, every
slot `results[i]` holds `run i`. -/
theorem pool_done_results {ρ : Type} {run : Nat → ρ} {n K : Nat} {s : PoolState ρ}
    (hK : 1 ≤ K) (hr : PoolReachable run n K s) (hd : PoolDone s) :
    s.results.length = n ∧ ∀ i, i < n → s.results[i]? = some (some (run i)) := by
  have hinv := poolInv_reachable hr
  refine ⟨hinv.rlen, fun i hi => ?_⟩
  have hminpos : 0 < min K n := by omega
  have hw0 : ∃ st, s.workers[0]? = some st := by
    have : 0 < s.workers.length := by rw [hinv.wlen]; exact hminpos
    exact ⟨s.workers[0], List.getElem?_eq_some.mpr ⟨this, rfl⟩⟩
  obtain ⟨st, hst⟩ := hw0
  have hstd : st = WStatus.done := hd st (List.getElem?_mem hst)
  subst hstd
  have hcur : n ≤ s.cursor := hinv.doneCur 0 hst
  rcases hinv.fetched i (by omega) hi with hres | ⟨w, hw⟩
  · exact hres
  · have : WStatus.pending i = WStatus.done := hd _ (List.getElem?_mem hw)
    cases this

/-! ### Claims C1 and C2 — the Concurrency Pool -/

/-- C1: for every list of targets and concurrency limit `K ≥ 1`, whenever
`mapWithConcurrency` returns — that is, at any drained (`PoolDone`) state
of any interleaving (`PoolReachable`), since `await Promise.all(workers)`
resolves only after all worker tasks have finished — the `results` array
has the input's length and `results[i]` holds exactly the value produced
from `targets[i]` (the mapper's value, or the captured error marker),
regardless of the order in which individual completions were scheduled. -/
theorem mapWithConcurrency_ordered {α ρ ε : Type} [Inhabited ρ] (items : List α)
    (mapper : α → Nat → Except ε ρ) (errMarker : ε → ρ) (K : Nat) (hK : 1 ≤ K)
    (s : PoolState ρ)
    (hr : PoolReachable (poolRun items mapper errMarker) items.length K s)
    (hd : PoolDone s) :
    s.results.length = items.length ∧
    ∀ i : Nat, ∀ h : i < items.length,
      s.results[i]? = some (some (poolRun items mapper errMarker i)) ∧
      ∀ v, mapper (items.get ⟨i, h⟩) i = .ok v → s.results[i]? = some (some v) := by
  obtain ⟨hlen, hres⟩ := pool_done_results hK hr hd
  refine ⟨hlen, fun i h => ⟨hres i h, fun v hv => ?_⟩⟩
  have hrun : poolRun items mapper errMarker i = v := by
    unfold poolRun
    rw [List.getElem?_eq_getElem h]
    simp only [List.get_eq_getElem] at hv
    simp [hv]
  rw [← hrun]
  exact hres i h

/-- Witness for C1: a full interleaving of one worker (`K = 1`) over two
items, ending drained with both results in input order. -/
theorem mapWithConcurrency_ordered_witness :
    (⟨3, [WStatus.done], [some (10 : Nat), some 21]⟩ : PoolState Nat).results.length = 2 ∧
    (⟨3, [WStatus.done], [some (10 : Nat), some 21]⟩ : PoolState Nat).results[0]? =
      some (some 10) ∧
    (⟨3, [WStatus.done], [some (10 : Nat), some 21]⟩ : PoolState Nat).results[1]? =
      some (some 21) := by
  have step1 : PoolStep (poolRun [10, 20] (fun a i => (.ok (a + i) : Except Unit Nat))
      (fun _ => 0)) 2 ⟨0, [WStatus.idle], [none, none]⟩ ⟨1, [WStatus.pending 0], [none, none]⟩ :=
    PoolStep.fetch _ 0 rfl
  have step2 : PoolStep (poolRun [10, 20] (fun a i => (.ok (a + i) : Except Unit Nat))
      (fun _ => 0)) 2 ⟨1, [WStatus.pending 0], [none, none]⟩
      ⟨1, [WStatus.idle], [some 10, none]⟩ :=
    PoolStep.complete _ 0 0 rfl
  have step3 : PoolStep (poolRun [10, 20] (fun a i => (.ok (a + i) : Except Unit Nat))
      (fun _ => 0)) 2 ⟨1, [WStatus.idle], [some 10, none]⟩
      ⟨2, [WStatus.pending 1], [some 10, none]⟩ :=
    PoolStep.fetch _ 0 rfl
  have step4 : PoolStep (poolRun [10, 20] (fun a i => (.ok (a + i) : Except Unit Nat))
      (fun _ => 0)) 2 ⟨2, [WStatus.pending 1], [some 10, none]⟩
      ⟨2, [WStatus.idle], [some 10, some 21]⟩ :=
    PoolStep.complete _ 0 1 rfl
  have step5 : PoolStep (poolRun [10, 20] (fun a i => (.ok (a + i) : Except Unit Nat))
      (fun _ => 0)) 2 ⟨2, [WStatus.idle], [some 10, some 21]⟩
      ⟨3, [WStatus.done], [some 10, some 21]⟩ :=
    PoolStep.fetch _ 0 rfl
  have hreach : PoolReachable (poolRun [10, 20]
      (fun a i => (.ok (a + i) : Except Unit Nat)) (fun _ => 0)) 2 1
      ⟨3, [WStatus.done], [some 10, some 21]⟩ :=
    Relation.ReflTransGen.head step1 (Relation.ReflTransGen.head step2
      (Relation.ReflTransGen.head step3 (Relation.ReflTransGen.head step4
        (Relation.ReflTransGen.head step5 Relation.ReflTransGen.refl))))
  have h := mapWithConcurrency_ordered [10, 20]
    (fun a i => (.ok (a + i) : Except Unit Nat)) (fun _ => 0) 1 (by norm_num)
    ⟨3, [WStatus.done], [some 10, some 21]⟩ hreach
    (by intro st hst; simpa using hst)
  exact ⟨h.1, (h.2 0 (by norm_num)).1, (h.2 1 (by norm_num)).1⟩

/-- The `{ __error: err }` marker (source line 131). -/
def jsErrorMarker (err : JsVal) : JsVal :=
  .obj [("__error", err)]

/-- C2: if the mapper for index `j` throws/rejects, then at any drained
state of any interleaving `results[j]` holds the `{ __error: err }` marker
for that index alone, every other index whose mapper succeeded holds its
own value, and no error escapes the pool (results are plain values — the
step semantics has no exception channel, matching the `catch` around the
only `await`).  The marker is treated as offline downstream:
`Boolean(marker.online)` — `truthy (getPropOpt (jsErrorMarker e)
"online")` — is `false`, and `__error` is its internal-error flag. -/
theorem mapWithConcurrency_isolates_errors {α : Type} (items : List α)
    (mapper : α → Nat → Except JsVal JsVal) (K : Nat) (hK : 1 ≤ K)
    (j : Nat) (e : JsVal) (s : PoolState JsVal)
    (hr : PoolReachable (poolRun items mapper jsErrorMarker) items.length K s)
    (hd : PoolDone s)
    (hj : j < items.length) (hje : mapper (items.get ⟨j, hj⟩) j = .error e) :
    s.results[j]? = some (some (jsErrorMarker e)) ∧
    (∀ i : Nat, ∀ h : i < items.length, ∀ v, i ≠ j →
      mapper (items.get ⟨i, h⟩) i = .ok v → s.results[i]? = some (some v)) ∧
    truthy (getPropOpt (jsErrorMarker e) "online") = false := by
  obtain ⟨hlen, hres⟩ := pool_done_results hK hr hd
  refine ⟨?_, fun i h v _ hv => ?_, rfl⟩
  · have hrun : poolRun items mapper jsErrorMarker j = jsErrorMarker e := by
      unfold poolRun
      rw [List.getElem?_eq_getElem hj]
      simp only [List.get_eq_getElem] at hje
      simp [hje]
    rw [← hrun]
    exact hres j hj
  · have hrun : poolRun items mapper jsErrorMarker i = v := by
      unfold poolRun
      rw [List.getElem?_eq_getElem h]
      simp only [List.get_eq_getElem] at hv
      simp [hv]
    rw [← hrun]
    exact hres i h

/-- Witness for C2: one worker over two items where the first mapper call
rejects; the drained state holds the error marker at index 0 and the
second item's own value at index 1. -/
theorem mapWithConcurrency_isolates_errors_witness :
    (⟨3, [WStatus.done],
      [some (jsErrorMarker (JsVal.str "boom")), some (JsVal.str "ok")]⟩ :
        PoolState JsVal).results[0]? = some (some (jsErrorMarker (JsVal.str "boom"))) ∧
    (⟨3, [WStatus.done],
      [some (jsErrorMarker (JsVal.str "boom")), some (JsVal.str "ok")]⟩ :
        PoolState JsVal).results[1]? = some (some (JsVal.str "ok")) ∧
    truthy (getPropOpt (jsErrorMarker (JsVal.str "boom")) "online") = false := by
  have step1 : PoolStep (poolRun [JsVal.null, JsVal.null]
      (fun _ i => if i = 0 then .error (JsVal.str "boom") else .ok (JsVal.str "ok"))
      jsErrorMarker) 2
      ⟨0, [WStatus.idle], [none, none]⟩ ⟨1, [WStatus.pending 0], [none, none]⟩ :=
    PoolStep.fetch _ 0 rfl
  have step2 : PoolStep (poolRun [JsVal.null, JsVal.null]
      (fun _ i => if i = 0 then .error (JsVal.str "boom") else .ok (JsVal.str "ok"))
      jsErrorMarker) 2
      ⟨1, [WStatus.pending 0], [none, none]⟩
      ⟨1, [WStatus.idle], [some (jsErrorMarker (JsVal.str "boom")), none]⟩ :=
    PoolStep.complete _ 0 0 rfl
  have step3 : PoolStep (poolRun [JsVal.null, JsVal.null]
      (fun _ i => if i = 0 then .error (JsVal.str "boom") else .ok (JsVal.str "ok"))
      jsErrorMarker) 2
      ⟨1, [WStatus.idle], [some (jsErrorMarker (JsVal.str "boom")), none]⟩
      ⟨2, [WStatus.pending 1], [some (jsErrorMarker (JsVal.str "boom")), none]⟩ :=
    PoolStep.fetch _ 0 rfl
  have step4 : PoolStep (poolRun [JsVal.null, JsVal.null]
      (fun _ i => if i = 0 then .error (JsVal.str "boom") else .ok (JsVal.str "ok"))
      jsErrorMarker) 2
      ⟨2, [WStatus.pending 1], [some (jsErrorMarker (JsVal.str "boom")), none]⟩
      ⟨2, [WStatus.idle],
        [some (jsErrorMarker (JsVal.str "boom")), some (JsVal.str "ok")]⟩ :=
    PoolStep.complete _ 0 1 rfl
  have step5 : PoolStep (poolRun [JsVal.null, JsVal.null]
      (fun _ i => if i = 0 then .error (JsVal.str "boom") else .ok (JsVal.str "ok"))
      jsErrorMarker) 2
      ⟨2, [WStatus.idle],
        [some (jsErrorMarker (JsVal.str "boom")), some (JsVal.str "ok")]⟩
      ⟨3, [WStatus.done],
        [some (jsErrorMarker (JsVal.str "boom")), some (JsVal.str "ok")]⟩ :=
    PoolStep.fetch _ 0 rfl
  have hreach : PoolReachable (poolRun [JsVal.null, JsVal.null]
      (fun _ i => if i = 0 then .error (JsVal.str "boom") else .ok (JsVal.str "ok"))
      jsErrorMarker) 2 1
      ⟨3, [WStatus.done],
        [some (jsErrorMarker (JsVal.str "boom")), some (JsVal.str "ok")]⟩ :=
    Relation.ReflTransGen.head step1 (Relation.ReflTransGen.head step2
      (Relation.ReflTransGen.head step3 (Relation.ReflTransGen.head step4
        (Relation.ReflTransGen.head step5 Relation.ReflTransGen.refl))))
  have h := mapWithConcurrency_isolates_errors [JsVal.null, JsVal.null]
    (fun _ i => if i = 0 then .error (JsVal.str "boom") else .ok (JsVal.str "ok"))
    1 (by norm_num) 0 (JsVal.str "boom") _ hreach
    (by intro st hst; simpa using hst) (by norm_num) rfl
  exact ⟨h.1, h.2.1 1 (by norm_num) (JsVal.str "ok") (by norm_num) rfl, h.2.2⟩

/-! ### The GSP (Minecraft Server List Ping) checker, source lines 197-336

Buffers are byte lists.  `Buffer.from(str, 'utf8')` is modelled
byte-per-char (`Char.toNat`), exact for the ASCII strings this
development feeds it.  `JSON.parse` plus the UTF-8 decode of the sliced
payload is abstracted as a parameter `jp : List Nat → Option JsVal`
(`Option.none` models a parse throw); the claim theorems quantify over
`jp`, so they hold for JavaScript's actual parser in particular. -/

/-- `Buffer.from(str, 'utf8')` for ASCII strings. -/
def utf8Bytes (s : String) : List Nat :=
  s.data.map Char.toNat

/-- `writeString(str)` (source lines 237-240): varint byte-length followed
by the bytes. -/
def writeString (s : String) : List Nat :=
  writeVarInt (utf8Bytes s).length ++ utf8Bytes s

/-- `buildMcHandshakePacket` (source lines 242-253): framed packet `0x00`
with protocol version, length-prefixed host, 2-byte big-endian port and
next-state `0x01`. -/
def buildMcHandshakePacket (host : String) (port : Nat) (protocolVersion : Nat := 758) :
    List Nat :=
  let packetId := writeVarInt 0x00
  let pv := writeVarInt protocolVersion
  let hostStr := writeString host
  let portBuf := [port / 256 % 256, port % 256]  -- portBuf.writeUInt16BE(port, 0)
  let nextState := writeVarInt 0x01
  let data := packetId ++ pv ++ hostStr ++ portBuf ++ nextState
  writeVarInt data.length ++ data

/-- `buildMcStatusRequestPacket` (source lines 255-259). -/
def buildMcStatusRequestPacket : List Nat :=
  let packetId := writeVarInt 0x00
  let data := packetId
  writeVarInt data.length ++ data

/-- Slicing `buf.slice(start, end)` with Node's (`Uint8Array.subarray`)
index resolution: a negative `end` counts back from `buf.length`; both
endpoints clamp to `[0, buf.length]`; an inverted range is empty. -/
def bufSlice (buf : List Nat) (start : Nat) (endI : Int) : List Nat :=
  let e : Nat :=
    if endI < 0 then ((buf.length : Int) + endI).toNat
    else min endI.toNat buf.length
  (buf.take e).drop start

/-- The `'close'` handler's response parsing (source lines 290-331): packet
length varint (its value is read but never checked against the buffer),
packet id varint (must be `0x00`), string length varint, then
`buf.slice(offset, offset + jsonLen)` with Node's index resolution
(`bufSlice`): an overlong `jsonLen` clamps to the buffer end, and a
negative (int32-reinterpreted) `jsonLen` makes the end index count back
from the buffer's end — it does *not* simply clamp to an empty slice —
then `JSON.parse` of the decoded slice (`jp`).  Any failure yields
`online: false` via the surrounding `catch`; on success `online: true`
with `players` exactly when both counts are finite numbers and `version`
exactly when `version.name` is a string.  (`rttMs` is wall-clock time and
is not modelled.) -/
def parseMcResponse (jp : List Nat → Option JsVal) (buf : List Nat) : CheckResult :=
  match readVarInt buf 0 with
  | Option.none => { online := false }
  | some lenInfo =>
    match readVarInt buf lenInfo.size with
    | Option.none => { online := false }
    | some packetIdInfo =>
      if packetIdInfo.value ≠ 0 then { online := false }
      else
        match readVarInt buf (lenInfo.size + packetIdInfo.size) with
        | Option.none => { online := false }
        | some jsonLenInfo =>
          let offset := lenInfo.size + packetIdInfo.size + jsonLenInfo.size
          let jsonBytes := bufSlice buf offset ((offset : Int) + jsonLenInfo.value)
          match jp jsonBytes with
          | Option.none => { online := false }
          | some parsed =>
            let playersOnline := getPropOpt (getPropOpt parsed "players") "online"
            let playersMax := getPropOpt (getPropOpt parsed "players") "max"
            let versionName := getPropOpt (getPropOpt parsed "version") "name"
            { online := true,
              players :=
                if isFiniteNum playersOnline && isFiniteNum playersMax then
                  some (.obj [("online", playersOnline), ("max", playersMax)])
                else Option.none,
              version :=
                match versionName with
                | .str s => some (.str s)
                | _ => Option.none }

/-! ### Claim C3 — the GSP response parser -/

/-- C3 (amended): for every JSON-parser semantics `jp` and byte buffer:
any failure the code actually checks for — unreadable packet-length
varint, unreadable packet-id varint, packet id other than `0x00`,
unreadable string-length varint, or a payload slice `jp` cannot parse —
yields `online: false` without raising; and whenever all three varints
read, the packet id is `0x00` and `jp` parses the payload slice (with
Node's slice resolution, `bufSlice`: an overlong string length clamps to
the buffer end, and a negative one resolves the end index back from the
buffer's end, so even a negative length can produce a non-empty, parsable
payload) to a document, the result is `online: true` with `players`
present iff both counts are finite numbers (and then equal to them) and
`version` present iff `version.name` is a string (and then equal to it).
The packet-length prefix's *value* is never compared with the available
bytes, so the original claim's "length prefix exceeding available bytes ⇒
offline" is false (see `gsp_parse_cx`): truncation yields offline exactly
when it breaks a varint or leaves the resolved payload slice unparsable —
which covers the spec's round-trip truncation scenario, since every
strict prefix of a JSON object document fails to parse. -/
theorem gsp_parse_characterization (jp : List Nat → Option JsVal) (buf : List Nat) :
    (readVarInt buf 0 = Option.none → parseMcResponse jp buf = { online := false }) ∧
    (∀ l, readVarInt buf 0 = some l → readVarInt buf l.size = Option.none →
      parseMcResponse jp buf = { online := false }) ∧
    (∀ l p, readVarInt buf 0 = some l → readVarInt buf l.size = some p →
      p.value ≠ 0 → parseMcResponse jp buf = { online := false }) ∧
    (∀ l p, readVarInt buf 0 = some l → readVarInt buf l.size = some p →
      p.value = 0 → readVarInt buf (l.size + p.size) = Option.none →
      parseMcResponse jp buf = { online := false }) ∧
    (∀ l p jl, readVarInt buf 0 = some l → readVarInt buf l.size = some p →
      p.value = 0 → readVarInt buf (l.size + p.size) = some jl →
      jp (bufSlice buf (l.size + p.size + jl.size) (((l.size + p.size + jl.size : Nat) : Int) + jl.value)) = Option.none →
      parseMcResponse jp buf = { online := false }) ∧
    (∀ l p jl parsed, readVarInt buf 0 = some l → readVarInt buf l.size = some p →
      p.value = 0 → readVarInt buf (l.size + p.size) = some jl →
      jp (bufSlice buf (l.size + p.size + jl.size) (((l.size + p.size + jl.size : Nat) : Int) + jl.value)) = some parsed →
      (parseMcResponse jp buf).online = true ∧
      (isFiniteNum (getPropOpt (getPropOpt parsed "players") "online") = true →
        isFiniteNum (getPropOpt (getPropOpt parsed "players") "max") = true →
        (parseMcResponse jp buf).players =
          some (.obj [("online", getPropOpt (getPropOpt parsed "players") "online"),
                      ("max", getPropOpt (getPropOpt parsed "players") "max")])) ∧
      (¬(isFiniteNum (getPropOpt (getPropOpt parsed "players") "online") = true ∧
         isFiniteNum (getPropOpt (getPropOpt parsed "players") "max") = true) →
        (parseMcResponse jp buf).players = Option.none) ∧
      (∀ s, getPropOpt (getPropOpt parsed "version") "name" = .str s →
        (parseMcResponse jp buf).version = some (.str s)) ∧
      ((∀ s, getPropOpt (getPropOpt parsed "version") "name" ≠ .str s) →
        (parseMcResponse jp buf).version = Option.none)) := by
  refine ⟨fun h1 => ?_, fun l h1 h2 => ?_, fun l p h1 h2 h3 => ?_,
    fun l p h1 h2 h3 h4 => ?_, fun l p jl h1 h2 h3 h4 h5 => ?_,
    fun l p jl parsed h1 h2 h3 h4 h5 => ?_⟩
  · unfold parseMcResponse
    rw [h1]
  · unfold parseMcResponse
    rw [h1]
    dsimp only
    rw [h2]
  · unfold parseMcResponse
    rw [h1]
    dsimp only
    rw [h2]
    dsimp only
    rw [if_pos h3]
  · unfold parseMcResponse
    rw [h1]
    dsimp only
    rw [h2]
    dsimp only
    rw [if_neg (by simp [h3]), h4]
  · unfold parseMcResponse
    rw [h1]
    dsimp only
    rw [h2]
    dsimp only
    rw [if_neg (by simp [h3]), h4]
    dsimp only
    rw [h5]
  · have hEq : parseMcResponse jp buf =
        { online := true,
          players :=
            if isFiniteNum (getPropOpt (getPropOpt parsed "players") "online") &&
               isFiniteNum (getPropOpt (getPropOpt parsed "players") "max") then
              some (.obj [("online", getPropOpt (getPropOpt parsed "players") "online"),
                          ("max", getPropOpt (getPropOpt parsed "players") "max")])
            else Option.none,
          version :=
            match getPropOpt (getPropOpt parsed "version") "name" with
            | .str s => some (.str s)
            | _ => Option.none } := by
      unfold parseMcResponse
      rw [h1]
      dsimp only
      rw [h2]
      dsimp only
      rw [if_neg (by simp [h3]), h4]
      dsimp only
      rw [h5]
    rw [hEq]
    refine ⟨rfl, fun hpo hpm => ?_, fun hn => ?_, fun s hs => ?_, fun hn => ?_⟩
    · simp [hpo, hpm]
    · have hfalse : (isFiniteNum (getPropOpt (getPropOpt parsed "players") "online") &&
          isFiniteNum (getPropOpt (getPropOpt parsed "players") "max")) = false := by
        cases hA : isFiniteNum (getPropOpt (getPropOpt parsed "players") "online") <;>
          cases hB : isFiniteNum (getPropOpt (getPropOpt parsed "players") "max") <;>
            simp_all
      simp [hfalse]
    · rw [hs]
    · dsimp only
      split
      · rename_i s hs
        exact absurd hs (hn s)
      · rfl

/-- The status document of the spec's round-trip scenario. -/
def mcTestDoc : JsVal :=
  .obj [("players", .obj [("online", .num (.rat 3)), ("max", .num (.rat 20))]),
        ("version", .obj [("name", .str "1.20")])]

/-- Its serialized JSON text, as UTF-8 bytes (59 ASCII characters). -/
def mcTestDocBytes : List Nat :=
  utf8Bytes "\x7b\"players\":\x7b\"online\":3,\"max\":20\x7d,\"version\":\x7b\"name\":\"1.20\"\x7d\x7d"

/-- A JSON-parser semantics agreeing with `JSON.parse` on the test payload. -/
def mcTestJsonParse : List Nat → Option JsVal :=
  fun bs => if bs = mcTestDocBytes then some mcTestDoc else Option.none

/-- The hand-built well-formed response packet:
`varint(len(payload)) ++ (varint packet id 0x00 ++ varint(strlen) ++ bytes)`. -/
def mcTestResponse : List Nat :=
  writeVarInt (mcTestDocBytes.length + 2) ++ writeVarInt 0x00 ++
    writeVarInt mcTestDocBytes.length ++ mcTestDocBytes

/-- Witness for C3's amended theorem: the spec's round-trip instance —
feeding the hand-built response carrying the document with players 3/20
and version name "1.20" through the parser yields `online: true` with
exactly those `players` and that `version`. -/
theorem gsp_parse_witness :
    (parseMcResponse mcTestJsonParse mcTestResponse).online = true ∧
    (parseMcResponse mcTestJsonParse mcTestResponse).players =
      some (.obj [("online", .num (.rat 3)), ("max", .num (.rat 20))]) ∧
    (parseMcResponse mcTestJsonParse mcTestResponse).version = some (.str "1.20") := by
  have hbuf : mcTestResponse = 61 :: 0 :: 59 :: mcTestDocBytes := by
    have h1 : writeVarInt (mcTestDocBytes.length + 2) = [61] := by
      simp [writeVarInt, writeVarIntAux, mcTestDocBytes, utf8Bytes]
    have h2 : writeVarInt 0x00 = [0] := by simp [writeVarInt, writeVarIntAux]
    have h3 : writeVarInt mcTestDocBytes.length = [59] := by
      simp [writeVarInt, writeVarIntAux, mcTestDocBytes, utf8Bytes]
    rw [mcTestResponse, h1, h2, h3]
    rfl
  rw [hbuf]
  have h := (gsp_parse_characterization mcTestJsonParse
      (61 :: 0 :: 59 :: mcTestDocBytes)).2.2.2.2.2 ⟨61, 1⟩ ⟨0, 1⟩ ⟨59, 1⟩ mcTestDoc
    (by decide) (by decide) rfl (by decide) rfl
  exact ⟨h.1, h.2.1 rfl rfl, h.2.2.2.1 "1.20" rfl⟩

/-- A JSON-parser semantics agreeing with `JSON.parse` on the single byte
`'1'` (`JSON.parse("1")` is the number `1`). -/
def gspCxJsonParse : List Nat → Option JsVal :=
  fun bs => if bs = [49] then some (.num (.rat 1)) else Option.none

/-- Counterexample to C3 as stated: the buffer `[127, 0, 1, 49]` has a
packet-length prefix of 127 — far exceeding the 3 bytes that follow — yet
the parser, which never validates that value, returns `online: true`. -/
theorem gsp_parse_cx :
    readVarInt [127, 0, 1, 49] 0 = some ⟨127, 1⟩ ∧
    ((127 : Int) > ((4 : Nat) : Int)) ∧
    (parseMcResponse gspCxJsonParse [127, 0, 1, 49]).online = true :=
  ⟨rfl, by norm_num, rfl⟩

/-! ### The Status Merger and Atomic Persister (`main`, source lines 412-488)

The tick is modelled up to its I/O boundary: file reads become a
`FileState` (absent / present-but-unparsable / parsed value), the network
outcome of each target's dispatched checker is an oracle `Nat →
CheckResult` indexed by config position (the pool's order preservation —
claim C1 — justifies indexing results by input position), and the final
`atomicWriteJson` call is the `written` field of the output. -/

/-- A persisted status record, at the granularity of `main`'s final
destructuring (source line 467): only `online`, `lastCheckAt`, `players`
and `version` survive into `nextStatus[id]`. -/
structure StatusRecord where
  online : Bool
  lastCheckAt : String
  players : Option JsVal := Option.none
  version : Option JsVal := Option.none

/-- First binding of a key in an association list (`Map.get`). -/
def assocFind {β : Type} : List (String × β) → String → Option β
  | [], _ => Option.none
  | (k, v) :: rest, key => if k == key then some v else assocFind rest key

/-- `map.set(key, v)` / `obj[key] = v`: replace the (unique) existing
binding in place, else append. -/
def upsertAssoc {β : Type} : List (String × β) → String → β → List (String × β)
  | [], key, v => [(key, v)]
  | (k, w) :: rest, key, v =>
    if k == key then (key, v) :: rest else (k, w) :: upsertAssoc rest key v

/-- `normalizeStatusArray` (source lines 96-101). -/
def normalizeStatusArray (v : JsVal) : List JsVal :=
  match v with
  | .arr items => items
  | _ => []

/-- One step of `makeStatusIndex`'s loop (source lines 103-109):
`if (item && typeof item.id === 'string') map.set(item.id, item)`. -/
def statusIndexStep (acc : List (String × JsVal)) (it : JsVal) : List (String × JsVal) :=
  if truthy it then
    match getPropOpt it "id" with
    | .str id => upsertAssoc acc id it
    | _ => acc
  else acc

/-- `makeStatusIndex` (source lines 103-109). -/
def makeStatusIndex (items : List JsVal) : List (String × JsVal) :=
  items.foldl statusIndexStep []

/-- `statusIndex.get(id) || (obj with the id)` (source line 436). -/
def baseOf (statusIdx : List (String × JsVal)) (id : String) : JsVal :=
  match assocFind statusIdx id with
  | some b => b
  | Option.none => .obj [("id", .str id)]

/-- The record the mapper builds and the output loop keeps (source lines
446-459 and 467-471): `next` is the spread of `base` with `id`, `online:
Boolean(result.online)` and `lastCheckAt` set — then `next.players` is
overwritten by `result.players` or deleted (dropping any value spread from
`base`), likewise `next.version`; the final destructuring keeps only the
four status fields, so nothing of `base` survives
(see `mkNext_base_irrelevant`). -/
def mkNext (base : JsVal) (result : CheckResult) (checkedAt : String) : StatusRecord :=
  { online := result.online,      -- overwrites any `online` spread from base
    lastCheckAt := checkedAt,     -- overwrites any `lastCheckAt` spread from base
    players :=
      match result.players with
      | some p => some p          -- next.players = result.players
      | Option.none => Option.none,  -- delete next.players (drops base's spread value)
    version :=
      match result.version with
      | some v => some v
      | Option.none => Option.none }

/-- The guard of source lines 439-441: a record is retained only for a
string, non-blank-after-trim id. -/
def validId (server : JsVal) : Option String :=
  match getProp server "id" with
  | .ok (.str id) => if jsTrim id = "" then Option.none else some id
  | _ => Option.none

/-- The id under which the output loop keeps a target's record: present
exactly when the id guard passes and the dispatched check resolves.  A
rejected check makes the pool store the id-less `{ __error }` marker,
which the loop skips, so the id is not kept. -/
def keptId (server : JsVal) (io : CheckResult) : Option String :=
  match validId server with
  | Option.none => Option.none
  | some id =>
    match runCheckResult server io with
    | .ok (.resolved _) => some id
    | _ => Option.none

/-- The async mapper closure of source lines 434-460, as observed by the
snapshot loop (source lines 462-472): `Option.none` covers the
`return null` guard exits, a thrown access (nullish `server`), and a
rejected check — in the latter two cases `mapWithConcurrency` stores the
`{ __error: err }` marker, which has no `id` and is dropped by
`if (!item || !item.id) continue` exactly like `null`. -/
def tickMapper (statusIdx : List (String × JsVal)) (checkedAt : String)
    (server : JsVal) (io : CheckResult) : Option (String × StatusRecord) :=
  match getProp server "id" with
  | .error _ => Option.none
  | .ok idv =>
    match idv with
    | .str id =>
      let base := baseOf statusIdx id  -- computed before the guard in the source; no effect
      if jsTrim id = "" then Option.none
      else
        match runCheckResult server io with
        | .error _ => Option.none
        | .ok .rejected => Option.none
        | .ok (.resolved result) => some (id, mkNext base result checkedAt)
    | _ => Option.none

/-- The pool's results array in input order (claim C1), one slot per
config entry, the slot at overall index `i0 + j` fed by the oracle. -/
def tickResults (statusIdx : List (String × JsVal)) (checkedAt : String)
    (oracle : Nat → CheckResult) : List JsVal → Nat → List (Option (String × StatusRecord))
  | [], _ => []
  | server :: rest, i =>
    tickMapper statusIdx checkedAt server (oracle i) ::
      tickResults statusIdx checkedAt oracle rest (i + 1)

/-- The `nextStatus` output loop (source lines 462-472): fold the results
in order, keyed by id. -/
def buildSnapshotAux (acc : List (String × StatusRecord)) :
    List (Option (String × StatusRecord)) → List (String × StatusRecord)
  | [] => acc
  | Option.none :: rest => buildSnapshotAux acc rest
  | some (id, r) :: rest => buildSnapshotAux (upsertAssoc acc id r) rest

/-- The snapshot object `main` writes for a given config, prior snapshot
index, per-target network oracle and tick timestamp. -/
def tickSnapshot (servers : List JsVal) (statusIdx : List (String × JsVal))
    (oracle : Nat → CheckResult) (checkedAt : String) : List (String × StatusRecord) :=
  buildSnapshotAux [] (tickResults statusIdx checkedAt oracle servers 0)

/-- A file as `readJsonIfExists` sees it. -/
inductive FileState where
  | absent
  | unparsable
  | parsed (v : JsVal)

/-- `readJsonIfExists` (source lines 75-84): missing file (`ENOENT` /
`ENOTDIR`) yields the fallback; a file that exists but fails `JSON.parse`
rethrows (surfaced, never swallowed). -/
def readJsonIfExists (f : FileState) (fallback : JsVal) : Except Unit JsVal :=
  match f with
  | .absent => .ok fallback
  | .unparsable => .error ()
  | .parsed v => .ok v

/-- Observable outcome of one `main()` run: the process exit code (0 on a
successful tick; the entry-point `catch` sets 1 on a thrown error; `main`
itself sets 2 on config problems) and the snapshot handed to
`atomicWriteJson`, if any. -/
structure MainOut where
  exitCode : Nat
  written : Option (List (String × StatusRecord))

/-- `main()` (source lines 412-488) up to its I/O boundary. -/
def mainModel (configFile statusFile : FileState) (oracle : Nat → CheckResult)
    (checkedAt : String) : MainOut :=
  match readJsonIfExists configFile .null with
  | .error _ => ⟨1, Option.none⟩           -- thrown; entry catch sets exitCode 1
  | .ok config =>
    if !truthy config then ⟨2, Option.none⟩  -- `if (!config)` missing-config path
    else
      match config with
      | .arr servers =>
        match readJsonIfExists statusFile (.arr []) with
        | .error _ => ⟨1, Option.none⟩     -- unparsable prior snapshot: thrown, no write
        | .ok existingRaw =>
          let statusIdx := makeStatusIndex (normalizeStatusArray existingRaw)
          ⟨0, some (tickSnapshot servers statusIdx oracle checkedAt)⟩
      | _ => ⟨2, Option.none⟩              -- `!Array.isArray(config)` path

/-! ### Lemmas about the tick pipeline -/

theorem shouldSkipPoll_ok {server : JsVal} (h : notNullish server = true) :
    ∃ b, shouldSkipPoll server = .ok b := by
  by_cases hz : strictEqStr (jsOr (getPropOpt server "ip") (getPropOpt server "host"))
    "0.0.0.0" = true
  · exact ⟨true, shouldSkipPoll_zero h hz⟩
  · unfold shouldSkipPoll
    rw [getProp_eq_ok h, except_bind_ok, getProp_eq_ok h, except_bind_ok,
      if_neg hz, getProp_eq_ok h, except_bind_ok, pickHostPort_ok h, except_bind_ok]
    exact ⟨_, rfl⟩

theorem chooseChecker_ok {server : JsVal} (h : notNullish server = true) :
    ∃ c, chooseChecker server = .ok c := by
  by_cases hu : startsWithHttp (getPropOpt server "url") = true
  · exact ⟨.http, chooseChecker_http h hu⟩
  · exact ⟨_, chooseChecker_hostPort h (by simpa using hu) (pickHostPort_ok h)⟩

theorem runCheckPlan_ok {server : JsVal} (h : notNullish server = true) :
    ∃ a, runCheckPlan server = .ok a := by
  obtain ⟨b, hs⟩ := shouldSkipPoll_ok h
  obtain ⟨c, hc⟩ := chooseChecker_ok h
  unfold runCheckPlan
  rw [getProp_eq_ok h, except_bind_ok]
  cases he : isEnabled server
  · exact ⟨_, rfl⟩
  · simp only [Bool.not_true, Bool.false_eq_true, if_false]
    rw [hs, except_bind_ok]
    cases b
    · rw [hc, except_bind_ok]
      cases c
      · rw [getProp_eq_ok h, except_bind_ok]
        exact ⟨_, rfl⟩
      · rw [pickHostPort_ok h, except_bind_ok]
        exact ⟨_, rfl⟩
      · exact ⟨_, rfl⟩
    · exact ⟨_, rfl⟩

theorem runCheckResult_ok {server : JsVal} (h : notNullish server = true)
    (io : CheckResult) : ∃ o, runCheckResult server io = .ok o := by
  obtain ⟨a, ha⟩ := runCheckPlan_ok h
  unfold runCheckResult
  rw [ha, except_bind_ok]
  cases a with
  | ret r => exact ⟨_, rfl⟩
  | http u t => exact ⟨_, rfl⟩
  | tcp hh pp tt =>
    dsimp only
    split
    · exact ⟨_, rfl⟩
    · exact ⟨_, rfl⟩

/-- With a non-nullish target the settlement is a genuine dichotomy:
the check resolves with some result, or it rejects. -/
theorem runCheckResult_split {server : JsVal} (h : notNullish server = true)
    (io : CheckResult) :
    (∃ r, runCheckResult server io = .ok (.resolved r)) ∨
      runCheckResult server io = .ok .rejected := by
  obtain ⟨o, ho⟩ := runCheckResult_ok h io
  cases o with
  | resolved r => exact Or.inl ⟨r, ho⟩
  | rejected => exact Or.inr ho

theorem mkNext_eq (base : JsVal) (result : CheckResult) (checkedAt : String) :
    mkNext base result checkedAt =
      { online := result.online, lastCheckAt := checkedAt,
        players := result.players, version := result.version } := by
  cases hp : result.players <;> cases hv : result.version <;>
    simp [mkNext, hp, hv]

/-- The deletes/overwrites make the record independent of the spread base
— nothing of the prior snapshot record survives a fresh check. -/
theorem mkNext_base_irrelevant (b b' : JsVal) (result : CheckResult) (checkedAt : String) :
    mkNext b result checkedAt = mkNext b' result checkedAt := by
  rw [mkNext_eq, mkNext_eq]

theorem tickMapper_rejected {server : JsVal} {id : String}
    (statusIdx : List (String × JsVal)) (checkedAt : String) (io : CheckResult)
    (hid : validId server = some id)
    (hres : runCheckResult server io = .ok .rejected) :
    tickMapper statusIdx checkedAt server io = Option.none := by
  unfold validId at hid
  cases hgp : getProp server "id" with
  | error e => rw [hgp] at hid; cases hid
  | ok idv =>
    rw [hgp] at hid
    cases idv <;> dsimp only at hid <;> try cases hid
    rename_i id'
    by_cases hb : jsTrim id' = ""
    · rw [if_pos hb] at hid; cases hid
    · rw [if_neg hb] at hid
      cases hid
      unfold tickMapper
      rw [hgp]
      dsimp only
      rw [if_neg hb, hres]

theorem keptId_of_rejected {server : JsVal} {io : CheckResult} {id : String}
    (hid : validId server = some id)
    (hres : runCheckResult server io = .ok .rejected) :
    keptId server io = Option.none := by
  unfold keptId
  rw [hid, hres]

/-- A target with a usable URL, for the C5 witness. -/
def c5Web : JsVal := .obj [("id", .str "web"), ("url", .str "https://x")]

/-- The network oracle for the C5 witness: every dispatched check comes
back online with no players/version. -/
def c5Oracle : Nat → CheckResult := fun _ => { online := true }

/-- C9: whenever the prior snapshot file exists but its contents fail to
parse, the tick aborts — regardless of the config file's state, `main`
ends with a non-zero exit code and `atomicWriteJson` is never reached, so
the previous snapshot file's content is left untouched.  (With a healthy
config the thrown parse error itself surfaces through the entry-point
`catch` as exit code 1.) -/
theorem snapshot_read_fatal (configFile : FileState) (oracle : Nat → CheckResult)
    (checkedAt : String) :
    (mainModel configFile FileState.unparsable oracle checkedAt).written = Option.none ∧
    (mainModel configFile FileState.unparsable oracle checkedAt).exitCode ≠ 0 := by
  cases configFile with
  | absent => exact ⟨rfl, fun hc => Nat.noConfusion hc⟩
  | unparsable => exact ⟨rfl, fun hc => Nat.noConfusion hc⟩
  | parsed v =>
    unfold mainModel
    dsimp only [readJsonIfExists]
    cases ht : truthy v
    · exact ⟨rfl, fun hc => Nat.noConfusion hc⟩
    · cases v <;> exact ⟨rfl, fun hc => Nat.noConfusion hc⟩

/-- Witness for C9: a healthy config (an array with one target) and an
unparsable prior snapshot — exit code 1, nothing written. -/
theorem snapshot_read_fatal_witness :
    (mainModel (FileState.parsed (.arr [c5Web])) FileState.unparsable c5Oracle "T").written =
      Option.none ∧
    (mainModel (FileState.parsed (.arr [c5Web])) FileState.unparsable c5Oracle "T").exitCode ≠
      0 :=
  snapshot_read_fatal (FileState.parsed (.arr [c5Web])) c5Oracle "T"

/-! ### Claim C6 — ticks started by one program invocation -/

/-- `runOnce()` (source lines 388-390) starts exactly one run of `main()`. -/
def runOnceMainCalls : Nat := 1

/-- `runWatch()` (source lines 392-396) starts one immediate run of
`main()` (before its interval timer ever fires). -/
def runWatchImmediateMainCalls : Nat := 1

/-- The runs of `main()` started when the script is loaded: line 407
evaluates `(watch ? runWatch() : runOnce()).catch(...)`, and line 490
unconditionally evaluates `main().catch(...)` as well — a stale second
entry point.  Both calls begin synchronously in the same script
evaluation, so their ticks are concurrently in flight. -/
def entryMainCalls (watch : Bool) : Nat :=
  (if watch then runWatchImmediateMainCalls else runOnceMainCalls) + 1

/-- C6 is a code bug: without `--watch` the source starts `main()` twice
per invocation (lines 407 and 490), not once — two concurrent ticks, each
writing the snapshot file. -/
theorem entry_runs_two_ticks :
    entryMainCalls false = 2 ∧ entryMainCalls false ≠ 1 := by
  constructor <;> decide

end Nebula
